import Mathlib

/-!
# Verification of the supervised-process execution primitive
(`python/graminelibos/regression.py`)

Shallow embedding of the regression-test harness's core: `run_binary` and
`run_native_binary` launch a child process in its own process group, wait for
it bounded by an effective timeout, capture both output streams in full,
forward them via `print_output`, and classify the exit status; the
`expect_returncode` context manager intercepts `CalledProcessError` with a
specific expected code.

The child process itself is external: it is modelled by a `ProcSpec` giving
its running time (seconds), exit status, and the bytes it writes to stdout
and stderr.  `subprocess.Popen.communicate(timeout=t)` returns both fully
captured streams when the process finishes within `t` seconds and raises
`TimeoutExpired` otherwise.  Side effects (spawning, `os.killpg` with
`SIGKILL`, forwarding output to the harness's own stdout/stderr) are recorded
in an event trace.  Python `bytes` values are `List Nat` (one entry per byte);
Python `str` values produced by decoding are `List Nat` of Unicode code
points.  `bytes.decode()` is the strict UTF-8 decoder `utf8Decode?`
(raising `UnicodeDecodeError` = `none`); `bytes.decode(errors='surrogateescape')`
is the total decoder `decodeSE`, which maps each undecodable byte `b` to the
lone surrogate `0xDC00 + b`, as CPython's surrogateescape handler does.

Plumbing out of the claims' scope is not modelled: environment assembly
(`env`/`libpath`/`**kwds` forwarded verbatim to `Popen`), artifact-path
discovery (`pal_path` etc.), and `run_gdb`'s debugger prefix construction.
-/

namespace Gramine

/-- A continuation byte `0x80..0xBF`. -/
def isCont (b : Nat) : Bool := 0x80 ≤ b && b ≤ 0xBF

/-- Allowed second byte of a 3-byte UTF-8 sequence led by `b0`
(`0xE0` excludes overlong encodings, `0xED` excludes surrogates). -/
def cont2ok (b0 b1 : Nat) : Bool :=
  if b0 = 0xE0 then 0xA0 ≤ b1 && b1 ≤ 0xBF
  else if b0 = 0xED then 0x80 ≤ b1 && b1 ≤ 0x9F
  else isCont b1

/-- Allowed second byte of a 4-byte UTF-8 sequence led by `b0`
(`0xF0` excludes overlong encodings, `0xF4` caps at `U+10FFFF`). -/
def cont3ok (b0 b1 : Nat) : Bool :=
  if b0 = 0xF0 then 0x90 ≤ b1 && b1 ≤ 0xBF
  else if b0 = 0xF4 then 0x80 ≤ b1 && b1 ≤ 0x8F
  else isCont b1

/-- One step of UTF-8 decoding: given the first byte `b0` and the remaining
bytes `rest`, return the code point of the valid sequence starting at `b0`
together with the bytes after it, or `none` when no valid sequence starts
there.  Rejects overlong encodings, surrogates and code points above
`U+10FFFF`, as CPython does. -/
def utf8Step (b0 : Nat) (rest : List Nat) : Option (Nat × List Nat) :=
  if b0 ≤ 0x7F then some (b0, rest)
  else if 0xC2 ≤ b0 && b0 ≤ 0xDF then
    match rest with
    | b1 :: rest1 =>
      if isCont b1 then some ((b0 - 0xC0) * 64 + (b1 - 0x80), rest1) else none
    | [] => none
  else if 0xE0 ≤ b0 && b0 ≤ 0xEF then
    match rest with
    | b1 :: b2 :: rest2 =>
      if cont2ok b0 b1 && isCont b2 then
        some ((b0 - 0xE0) * 4096 + (b1 - 0x80) * 64 + (b2 - 0x80), rest2)
      else none
    | _ => none
  else if 0xF0 ≤ b0 && b0 ≤ 0xF4 then
    match rest with
    | b1 :: b2 :: b3 :: rest3 =>
      if cont3ok b0 b1 && isCont b2 && isCont b3 then
        some ((b0 - 0xF0) * 262144 + (b1 - 0x80) * 4096 + (b2 - 0x80) * 64 + (b3 - 0x80),
          rest3)
      else none
    | _ => none
  else none

/-- Fuel-indexed strict UTF-8 decoding.  Each `utf8Step` consumes at least
one byte, so fuel `bs.length` always suffices; the `0, _ :: _` case is
unreachable under that fuel and only makes the recursion structural. -/
def utf8DecodeFuel : Nat → List Nat → Option (List Nat)
  | _, [] => some []
  | fuel + 1, b0 :: rest =>
    match utf8Step b0 rest with
    | some (c, rest') => (utf8DecodeFuel fuel rest').map (fun cs => c :: cs)
    | none => none
  | 0, _ :: _ => none

/-- Strict UTF-8 decoding of a byte sequence into code points: Python's
`bytes.decode()`. `none` models `UnicodeDecodeError`. -/
def utf8Decode? (bs : List Nat) : Option (List Nat) :=
  utf8DecodeFuel bs.length bs

/-- UTF-8 encoding of one code point. -/
def utf8EncodeChar (c : Nat) : List Nat :=
  if c ≤ 0x7F then [c]
  else if c ≤ 0x7FF then [0xC0 + c / 64, 0x80 + c % 64]
  else if c ≤ 0xFFFF then [0xE0 + c / 4096, 0x80 + c / 64 % 64, 0x80 + c % 64]
  else [0xF0 + c / 262144, 0x80 + c / 4096 % 64, 0x80 + c / 64 % 64, 0x80 + c % 64]

/-- UTF-8 encoding of a code-point sequence. -/
def utf8Encode : List Nat → List Nat
  | [] => []
  | c :: cs => utf8EncodeChar c ++ utf8Encode cs

/-- Fuel-indexed lossy UTF-8 decoding; fuel `bs.length` always suffices
(see `utf8DecodeFuel`): on failure one byte is consumed as a placeholder and
decoding resynchronises at the next byte. -/
def decodeSEFuel : Nat → List Nat → List Nat
  | _, [] => []
  | fuel + 1, b0 :: rest =>
    match utf8Step b0 rest with
    | some (c, rest') => c :: decodeSEFuel fuel rest'
    | none => (0xDC00 + b0) :: decodeSEFuel fuel rest
  | 0, _ :: _ => []

/-- Lossy UTF-8 decoding: Python's `bytes.decode(errors='surrogateescape')`.
Total: where a valid sequence starts it decodes it as `utf8Decode?` does;
otherwise it substitutes the placeholder `0xDC00 + b` for the offending byte
and resynchronises at the next byte, never failing. -/
def decodeSE (bs : List Nat) : List Nat :=
  decodeSEFuel bs.length bs

/-- Behaviour of the external child process: how many seconds it runs before
exiting, its exit status (`process.returncode`, negative when killed by a
signal), and the full byte content it writes to each stream. -/
structure ProcSpec where
  runtime : Nat
  returncode : Int
  stdout : List Nat
  stderr : List Nat
  deriving DecidableEq, Repr

/-- Signals the harness can send (`signal.SIGKILL`, `signal.SIGTERM`). -/
inductive Sig
  | SIGKILL
  | SIGTERM
  deriving DecidableEq, Repr

/-- Observable side effects of one supervised invocation, in order:
`spawn argv` is `subprocess.Popen(argv, ..., preexec_fn=os.setpgrp)`;
`killpg s` is `os.killpg(process.pid, s)`, signalling the whole process
group; `forward o e` writes the code-point sequences `o` and `e` to the
harness's own `sys.stdout` / `sys.stderr`. -/
inductive Event
  | spawn (argv : List String)
  | killpg (s : Sig)
  | forward (outText errText : List Nat)
  deriving DecidableEq, Repr

/-- Observer picking out the group-kill events of a trace. -/
def isKillEvent : Event → Bool
  | Event.killpg _ => true
  | _ => false

/-- Outcome of one supervised invocation, as seen by the caller:
`success` is the `return stdout.decode(), stderr.decode()` pair (code
points); `calledProcessError rc cmd out err` is
`subprocess.CalledProcessError(returncode, args, stdout, stderr)` (raw
bytes); `testFailure msg` is the `AssertionError` raised by `self.fail(msg)`
or `raise AssertionError(msg)`; `unicodeDecodeError` is the
`UnicodeDecodeError` raised by a strict `.decode()` of invalid UTF-8. -/
inductive RunResult
  | success (stdout stderr : List Nat)
  | calledProcessError (returncode : Int) (cmd : List String) (stdout stderr : List Nat)
  | testFailure (msg : String)
  | unicodeDecodeError
  deriving DecidableEq, Repr

/-- `RegressionTestCase.DEFAULT_TIMEOUT = (20 if HAS_SGX else 10)`. -/
def DEFAULT_TIMEOUT (hasSGX : Bool) : Nat := if hasSGX then 20 else 10

/-- The effective timeout: `max(self.DEFAULT_TIMEOUT, timeout) if timeout is
not None else self.DEFAULT_TIMEOUT`, identical in `run_binary` and
`run_native_binary`. -/
def effectiveTimeout (dflt : Nat) : Option Nat → Nat
  | some t => max dflt t
  | none => dflt

/-- Whether the two required artifacts exist on disk
(`self.loader_path.exists()`, `self.libpal_path.exists()`). -/
structure ArtifactFS where
  loaderExists : Bool
  libpalExists : Bool
  deriving DecidableEq, Repr

/-- `RegressionTestCase.print_output(stdout, stderr)`: forwards both captured
streams to the harness's own stdout/stderr, decoded with
`errors='surrogateescape'`. -/
def print_output (stdout stderr : List Nat) : Event :=
  .forward (decodeSE stdout) (decodeSE stderr)

/-- `RegressionTestCase.run_binary(args, timeout=, prefix=, **kwds)` over a
child behaving as `proc`.  Returns the caller-visible outcome and the event
trace.  `lp`/`pp` are the (string) loader and libpal paths, `fs` records
their existence, `hasSGX` the `SGX=1` environment mode. -/
def run_binary (hasSGX : Bool) (fs : ArtifactFS) (lp pp : String)
    (args : List String) (timeout : Option Nat) (pfx : Option (List String))
    (proc : ProcSpec) : RunResult × List Event :=
  let tmo := effectiveTimeout (DEFAULT_TIMEOUT hasSGX) timeout
  if !fs.loaderExists then
    (.testFailure ("loader (" ++ lp ++ ") not found"), [])
  else if !fs.libpalExists then
    (.testFailure ("libpal (" ++ pp ++ ") not found"), [])
  else
    let argv := pfx.getD [] ++ [lp, pp, "init"] ++ args
    if tmo < proc.runtime then
      (.testFailure ("timeout (" ++ toString tmo ++ " s) expired"),
        [.spawn argv, .killpg .SIGKILL])
    else
      let evs := [Event.spawn argv, print_output proc.stdout proc.stderr]
      if proc.returncode ≠ 0 then
        (.calledProcessError proc.returncode args proc.stdout proc.stderr, evs)
      else
        match utf8Decode? proc.stdout with
        | none => (.unicodeDecodeError, evs)
        | some so =>
          match utf8Decode? proc.stderr with
          | none => (.unicodeDecodeError, evs)
          | some se => (.success so se, evs)

/-- `RegressionTestCase.run_native_binary(args, timeout=, libpath=, **kwds)`
over a child behaving as `proc`: same supervision, but the argument vector is
exactly `args` (no loader convention and no artifact check; `libpath` only
adjusts the child's environment, which is not modelled). -/
def run_native_binary (hasSGX : Bool) (args : List String) (timeout : Option Nat)
    (proc : ProcSpec) : RunResult × List Event :=
  let tmo := effectiveTimeout (DEFAULT_TIMEOUT hasSGX) timeout
  if tmo < proc.runtime then
    (.testFailure ("timeout (" ++ toString tmo ++ " s) expired"),
      [.spawn args, .killpg .SIGKILL])
  else
    let evs := [Event.spawn args, print_output proc.stdout proc.stderr]
    if proc.returncode ≠ 0 then
      (.calledProcessError proc.returncode args proc.stdout proc.stderr, evs)
    else
      match utf8Decode? proc.stdout with
      | none => (.unicodeDecodeError, evs)
      | some so =>
        match utf8Decode? proc.stderr with
        | none => (.unicodeDecodeError, evs)
        | some se => (.success so se, evs)

/-- What the body of the `with self.expect_returncode(rc):` block does:
completes normally, raises `subprocess.CalledProcessError`, or raises any
other exception (timeout `AssertionError`, OS launch error, ...). -/
inductive BodyOutcome
  | completes
  | calledProcessError (returncode : Int) (cmd : List String) (stdout stderr : List Nat)
  | otherFailure (msg : String)
  deriving DecidableEq, Repr

/-- Outcome of the `expect_returncode` context manager itself. -/
inductive ExpectResult
  | valueError (msg : String)
  | passed
  | testFailure (msg : String)
  | propagated (msg : String)
  deriving DecidableEq, Repr

/-- `RegressionTestCase.expect_returncode(returncode)` around a body with
outcome `body`.  The boolean records whether the body was entered (the
`ValueError` for `returncode == 0` is raised before the `yield`).
`self.fail` and a failed `self.assertEqual` raise `AssertionError`, which is
not caught by the `except subprocess.CalledProcessError` clause; any
non-`CalledProcessError` exception from the body propagates unmodified. -/
def expect_returncode (returncode : Int) (body : BodyOutcome) : ExpectResult × Bool :=
  if returncode = 0 then
    (.valueError "expected returncode should be nonzero", false)
  else
    match body with
    | .completes =>
      (.testFailure ("did not fail (expected " ++ toString returncode ++ ")"), true)
    | .calledProcessError rc _ _ _ =>
      if rc = returncode then (.passed, true)
      else
        (.testFailure ("failed with returncode " ++ toString rc
          ++ " (expected " ++ toString returncode ++ ")"), true)
    | .otherFailure m => (.propagated m, true)

/-! ## Properties of the decoders -/

theorem cont2ok_bounds {b0 b1 : Nat} (h : cont2ok b0 b1 = true) :
    0x80 ≤ b1 ∧ b1 ≤ 0xBF ∧ (b0 = 0xE0 → 0xA0 ≤ b1) := by
  unfold cont2ok isCont at h
  split_ifs at h <;> simp at h <;> omega

theorem cont3ok_bounds {b0 b1 : Nat} (h : cont3ok b0 b1 = true) :
    0x80 ≤ b1 ∧ b1 ≤ 0xBF ∧ (b0 = 0xF0 → 0x90 ≤ b1) := by
  unfold cont3ok isCont at h
  split_ifs at h <;> simp at h <;> omega

theorem utf8Step_length {b0 c : Nat} {rest rest' : List Nat}
    (h : utf8Step b0 rest = some (c, rest')) : rest'.length ≤ rest.length := by
  rcases rest with _ | ⟨b1, _ | ⟨b2, _ | ⟨b3, rest3⟩⟩⟩ <;>
      simp only [utf8Step] at h <;> split_ifs at h <;>
      simp only [Option.some.injEq, Prod.mk.injEq] at h <;>
      obtain ⟨-, rfl⟩ := h <;>
      (try simp only [List.length_cons]) <;> omega

theorem utf8Step_encode {b0 c : Nat} {rest rest' : List Nat}
    (h : utf8Step b0 rest = some (c, rest')) :
    utf8EncodeChar c ++ rest' = b0 :: rest := by
  rcases rest with _ | ⟨b1, _ | ⟨b2, _ | ⟨b3, rest3⟩⟩⟩
  · -- rest = []: only a one-byte sequence can succeed
    simp only [utf8Step] at h
    split_ifs at h with h1 <;> try exact Option.noConfusion h
    simp only [Option.some.injEq, Prod.mk.injEq] at h
    obtain ⟨rfl, rfl⟩ := h
    simp [utf8EncodeChar, h1]
  · -- rest = [b1]
    simp only [utf8Step] at h
    split_ifs at h with h1 h2 hA <;> try exact Option.noConfusion h
    · simp only [Option.some.injEq, Prod.mk.injEq] at h
      obtain ⟨rfl, rfl⟩ := h
      simp [utf8EncodeChar, h1]
    · simp only [Option.some.injEq, Prod.mk.injEq] at h
      obtain ⟨rfl, rfl⟩ := h
      simp only [Bool.and_eq_true, decide_eq_true_eq] at h2
      simp only [isCont, Bool.and_eq_true, decide_eq_true_eq] at hA
      have hch : utf8EncodeChar ((b0 - 0xC0) * 64 + (b1 - 0x80)) = [b0, b1] := by
        simp only [utf8EncodeChar]
        split_ifs <;>
          first
            | (exfalso; omega)
            | (simp only [List.cons.injEq, and_true]; omega)
      simp [hch]
  · -- rest = [b1, b2]
    simp only [utf8Step] at h
    split_ifs at h with h1 h2 hA h3 hB <;> try exact Option.noConfusion h
    · simp only [Option.some.injEq, Prod.mk.injEq] at h
      obtain ⟨rfl, rfl⟩ := h
      simp [utf8EncodeChar, h1]
    · simp only [Option.some.injEq, Prod.mk.injEq] at h
      obtain ⟨rfl, rfl⟩ := h
      simp only [Bool.and_eq_true, decide_eq_true_eq] at h2
      simp only [isCont, Bool.and_eq_true, decide_eq_true_eq] at hA
      have hch : utf8EncodeChar ((b0 - 0xC0) * 64 + (b1 - 0x80)) = [b0, b1] := by
        simp only [utf8EncodeChar]
        split_ifs <;>
          first
            | (exfalso; omega)
            | (simp only [List.cons.injEq, and_true]; omega)
      simp [hch]
    · simp only [Option.some.injEq, Prod.mk.injEq] at h
      obtain ⟨rfl, rfl⟩ := h
      simp only [Bool.and_eq_true, decide_eq_true_eq] at h3
      rw [Bool.and_eq_true] at hB
      obtain ⟨hBa, hBb⟩ := hB
      obtain ⟨hb1a, hb1b, hb1c⟩ := cont2ok_bounds hBa
      have hb2 : 0x80 ≤ b2 ∧ b2 ≤ 0xBF := by simpa [isCont] using hBb
      have hlow : 0x800 ≤ (b0 - 0xE0) * 4096 + (b1 - 0x80) * 64 + (b2 - 0x80) := by
        rcases eq_or_ne b0 0xE0 with he | he
        · have := hb1c he; omega
        · omega
      have hch : utf8EncodeChar ((b0 - 0xE0) * 4096 + (b1 - 0x80) * 64 + (b2 - 0x80))
          = [b0, b1, b2] := by
        simp only [utf8EncodeChar]
        split_ifs <;>
          first
            | (exfalso; omega)
            | (simp only [List.cons.injEq, and_true]; omega)
      simp [hch]
  · -- rest = b1 :: b2 :: b3 :: rest3
    simp only [utf8Step] at h
    split_ifs at h with h1 h2 hA h3 hB h4 hC <;> try exact Option.noConfusion h
    · simp only [Option.some.injEq, Prod.mk.injEq] at h
      obtain ⟨rfl, rfl⟩ := h
      simp [utf8EncodeChar, h1]
    · simp only [Option.some.injEq, Prod.mk.injEq] at h
      obtain ⟨rfl, rfl⟩ := h
      simp only [Bool.and_eq_true, decide_eq_true_eq] at h2
      simp only [isCont, Bool.and_eq_true, decide_eq_true_eq] at hA
      have hch : utf8EncodeChar ((b0 - 0xC0) * 64 + (b1 - 0x80)) = [b0, b1] := by
        simp only [utf8EncodeChar]
        split_ifs <;>
          first
            | (exfalso; omega)
            | (simp only [List.cons.injEq, and_true]; omega)
      simp [hch]
    · simp only [Option.some.injEq, Prod.mk.injEq] at h
      obtain ⟨rfl, rfl⟩ := h
      simp only [Bool.and_eq_true, decide_eq_true_eq] at h3
      rw [Bool.and_eq_true] at hB
      obtain ⟨hBa, hBb⟩ := hB
      obtain ⟨hb1a, hb1b, hb1c⟩ := cont2ok_bounds hBa
      have hb2 : 0x80 ≤ b2 ∧ b2 ≤ 0xBF := by simpa [isCont] using hBb
      have hlow : 0x800 ≤ (b0 - 0xE0) * 4096 + (b1 - 0x80) * 64 + (b2 - 0x80) := by
        rcases eq_or_ne b0 0xE0 with he | he
        · have := hb1c he; omega
        · omega
      have hch : utf8EncodeChar ((b0 - 0xE0) * 4096 + (b1 - 0x80) * 64 + (b2 - 0x80))
          = [b0, b1, b2] := by
        simp only [utf8EncodeChar]
        split_ifs <;>
          first
            | (exfalso; omega)
            | (simp only [List.cons.injEq, and_true]; omega)
      simp [hch]
    · simp only [Option.some.injEq, Prod.mk.injEq] at h
      obtain ⟨rfl, rfl⟩ := h
      simp only [Bool.and_eq_true, decide_eq_true_eq] at h4
      rw [Bool.and_eq_true, Bool.and_eq_true] at hC
      obtain ⟨⟨hCa, hCb⟩, hCc⟩ := hC
      obtain ⟨hb1a, hb1b, hb1c⟩ := cont3ok_bounds hCa
      have hb2 : 0x80 ≤ b2 ∧ b2 ≤ 0xBF := by simpa [isCont] using hCb
      have hb3 : 0x80 ≤ b3 ∧ b3 ≤ 0xBF := by simpa [isCont] using hCc
      have hlow : 0x10000 ≤ (b0 - 0xF0) * 262144 + (b1 - 0x80) * 4096
          + (b2 - 0x80) * 64 + (b3 - 0x80) := by
        rcases eq_or_ne b0 0xF0 with he | he
        · have := hb1c he; omega
        · omega
      have hch : utf8EncodeChar ((b0 - 0xF0) * 262144 + (b1 - 0x80) * 4096
          + (b2 - 0x80) * 64 + (b3 - 0x80)) = [b0, b1, b2, b3] := by
        simp only [utf8EncodeChar]
        split_ifs <;>
          first
            | (exfalso; omega)
            | (simp only [List.cons.injEq, and_true]; omega)
      simp [hch]

theorem utf8DecodeFuel_mono : ∀ (f1 f2 : Nat) (bs : List Nat), bs.length ≤ f1 →
    bs.length ≤ f2 → utf8DecodeFuel f1 bs = utf8DecodeFuel f2 bs := by
  intro f1
  induction f1 with
  | zero =>
    intro f2 bs h1 h2
    rcases bs with _ | ⟨b0, rest⟩
    · rcases f2 with _ | f2 <;> rfl
    · simp at h1
  | succ n ih =>
    intro f2 bs h1 h2
    rcases bs with _ | ⟨b0, rest⟩
    · rcases f2 with _ | f2 <;> rfl
    · rcases f2 with _ | f2
      · simp at h2
      · simp only [utf8DecodeFuel]
        simp only [List.length_cons] at h1 h2
        rcases hstep : utf8Step b0 rest with _ | ⟨c, rest'⟩
        · rfl
        · have hl := utf8Step_length hstep
          show (utf8DecodeFuel n rest').map (fun cs => c :: cs)
              = (utf8DecodeFuel f2 rest').map (fun cs => c :: cs)
          rw [ih f2 rest' (by omega) (by omega)]

theorem decodeSEFuel_mono : ∀ (f1 f2 : Nat) (bs : List Nat), bs.length ≤ f1 →
    bs.length ≤ f2 → decodeSEFuel f1 bs = decodeSEFuel f2 bs := by
  intro f1
  induction f1 with
  | zero =>
    intro f2 bs h1 h2
    rcases bs with _ | ⟨b0, rest⟩
    · rcases f2 with _ | f2 <;> rfl
    · simp at h1
  | succ n ih =>
    intro f2 bs h1 h2
    rcases bs with _ | ⟨b0, rest⟩
    · rcases f2 with _ | f2 <;> rfl
    · rcases f2 with _ | f2
      · simp at h2
      · simp only [decodeSEFuel]
        simp only [List.length_cons] at h1 h2
        rcases hstep : utf8Step b0 rest with _ | ⟨c, rest'⟩
        · show (0xDC00 + b0) :: decodeSEFuel n rest = (0xDC00 + b0) :: decodeSEFuel f2 rest
          rw [ih f2 rest (by omega) (by omega)]
        · have hl := utf8Step_length hstep
          show c :: decodeSEFuel n rest' = c :: decodeSEFuel f2 rest'
          rw [ih f2 rest' (by omega) (by omega)]

theorem utf8Decode?_nil : utf8Decode? [] = some [] := rfl

theorem utf8Decode?_cons (b0 : Nat) (rest : List Nat) :
    utf8Decode? (b0 :: rest) =
      match utf8Step b0 rest with
      | some (c, rest') => (utf8Decode? rest').map (fun cs => c :: cs)
      | none => none := by
  show utf8DecodeFuel (b0 :: rest).length (b0 :: rest) = _
  simp only [List.length_cons, utf8DecodeFuel]
  rcases hstep : utf8Step b0 rest with _ | ⟨c, rest'⟩
  · rfl
  · have hl := utf8Step_length hstep
    show (utf8DecodeFuel rest.length rest').map (fun cs => c :: cs)
        = (utf8Decode? rest').map (fun cs => c :: cs)
    unfold utf8Decode?
    rw [utf8DecodeFuel_mono rest.length rest'.length rest' hl le_rfl]

theorem decodeSE_nil : decodeSE [] = [] := rfl

theorem decodeSE_cons (b0 : Nat) (rest : List Nat) :
    decodeSE (b0 :: rest) =
      match utf8Step b0 rest with
      | some (c, rest') => c :: decodeSE rest'
      | none => (0xDC00 + b0) :: decodeSE rest := by
  show decodeSEFuel (b0 :: rest).length (b0 :: rest) = _
  simp only [List.length_cons, decodeSEFuel]
  rcases hstep : utf8Step b0 rest with _ | ⟨c, rest'⟩
  · rfl
  · have hl := utf8Step_length hstep
    show c :: decodeSEFuel rest.length rest' = c :: decodeSE rest'
    unfold decodeSE
    rw [decodeSEFuel_mono rest.length rest'.length rest' hl le_rfl]

theorem utf8_decode_spec_aux : ∀ (n : Nat) (bs : List Nat), bs.length ≤ n →
    ∀ cs, utf8Decode? bs = some cs → utf8Encode cs = bs ∧ decodeSE bs = cs := by
  intro n
  induction n with
  | zero =>
    intro bs hlen cs hdec
    rcases bs with _ | ⟨b0, rest⟩
    · rw [utf8Decode?_nil, Option.some.injEq] at hdec
      subst hdec
      exact ⟨rfl, rfl⟩
    · simp at hlen
  | succ n ih =>
    intro bs hlen cs hdec
    rcases bs with _ | ⟨b0, rest⟩
    · rw [utf8Decode?_nil, Option.some.injEq] at hdec
      subst hdec
      exact ⟨rfl, rfl⟩
    · rw [utf8Decode?_cons] at hdec
      rcases hstep : utf8Step b0 rest with _ | ⟨c, rest'⟩
      · rw [hstep] at hdec
        exact Option.noConfusion hdec
      · rw [hstep] at hdec
        simp only [Option.map_eq_some'] at hdec
        obtain ⟨cs', hd', rfl⟩ := hdec
        have hlen' : rest'.length ≤ n := by
          have hl := utf8Step_length hstep
          simp only [List.length_cons] at hlen
          omega
        obtain ⟨henc, hse⟩ := ih rest' hlen' cs' hd'
        constructor
        · show utf8EncodeChar c ++ utf8Encode cs' = b0 :: rest
          rw [henc]
          exact utf8Step_encode hstep
        · rw [decodeSE_cons, hstep]
          show c :: decodeSE rest' = c :: cs'
          rw [hse]

theorem utf8_decode_roundtrip {bs cs : List Nat} (h : utf8Decode? bs = some cs) :
    utf8Encode cs = bs :=
  (utf8_decode_spec_aux bs.length bs le_rfl cs h).1

theorem decodeSE_eq_strict {bs cs : List Nat} (h : utf8Decode? bs = some cs) :
    decodeSE bs = cs :=
  (utf8_decode_spec_aux bs.length bs le_rfl cs h).2

/-! ## Path characterisations of the supervised invocations -/

theorem run_binary_run (hasSGX : Bool) (fs : ArtifactFS) (lp pp : String)
    (args : List String) (timeout : Option Nat) (pfx : Option (List String))
    (proc : ProcSpec)
    (hl : fs.loaderExists = true) (hp : fs.libpalExists = true)
    (ht : proc.runtime ≤ effectiveTimeout (DEFAULT_TIMEOUT hasSGX) timeout) :
    run_binary hasSGX fs lp pp args timeout pfx proc =
      (if proc.returncode ≠ 0 then
         .calledProcessError proc.returncode args proc.stdout proc.stderr
       else
         match utf8Decode? proc.stdout with
         | none => .unicodeDecodeError
         | some so =>
           match utf8Decode? proc.stderr with
           | none => .unicodeDecodeError
           | some se => .success so se,
       [.spawn (pfx.getD [] ++ [lp, pp, "init"] ++ args),
        print_output proc.stdout proc.stderr]) := by
  unfold run_binary
  rw [hl, hp]
  simp only [Bool.not_true, Bool.false_eq_true, if_false]
  rw [if_neg (Nat.not_lt.mpr ht)]
  split_ifs with hrc
  · rfl
  · rcases utf8Decode? proc.stdout with _ | so
    · rfl
    · rcases utf8Decode? proc.stderr with _ | se <;> rfl

theorem run_binary_timeout_eq (hasSGX : Bool) (fs : ArtifactFS) (lp pp : String)
    (args : List String) (timeout : Option Nat) (pfx : Option (List String))
    (proc : ProcSpec)
    (hl : fs.loaderExists = true) (hp : fs.libpalExists = true)
    (ht : effectiveTimeout (DEFAULT_TIMEOUT hasSGX) timeout < proc.runtime) :
    run_binary hasSGX fs lp pp args timeout pfx proc =
      (.testFailure ("timeout ("
          ++ toString (effectiveTimeout (DEFAULT_TIMEOUT hasSGX) timeout) ++ " s) expired"),
       [.spawn (pfx.getD [] ++ [lp, pp, "init"] ++ args), .killpg .SIGKILL]) := by
  unfold run_binary
  rw [hl, hp]
  simp only [Bool.not_true, Bool.false_eq_true, if_false]
  rw [if_pos ht]

theorem run_native_binary_run (hasSGX : Bool) (args : List String)
    (timeout : Option Nat) (proc : ProcSpec)
    (ht : proc.runtime ≤ effectiveTimeout (DEFAULT_TIMEOUT hasSGX) timeout) :
    run_native_binary hasSGX args timeout proc =
      (if proc.returncode ≠ 0 then
         .calledProcessError proc.returncode args proc.stdout proc.stderr
       else
         match utf8Decode? proc.stdout with
         | none => .unicodeDecodeError
         | some so =>
           match utf8Decode? proc.stderr with
           | none => .unicodeDecodeError
           | some se => .success so se,
       [.spawn args, print_output proc.stdout proc.stderr]) := by
  unfold run_native_binary
  rw [if_neg (Nat.not_lt.mpr ht)]
  split_ifs with hrc
  · rfl
  · rcases utf8Decode? proc.stdout with _ | so
    · rfl
    · rcases utf8Decode? proc.stderr with _ | se <;> rfl

theorem run_native_binary_timeout_eq (hasSGX : Bool) (args : List String)
    (timeout : Option Nat) (proc : ProcSpec)
    (ht : effectiveTimeout (DEFAULT_TIMEOUT hasSGX) timeout < proc.runtime) :
    run_native_binary hasSGX args timeout proc =
      (.testFailure ("timeout ("
          ++ toString (effectiveTimeout (DEFAULT_TIMEOUT hasSGX) timeout) ++ " s) expired"),
       [.spawn args, .killpg .SIGKILL]) := by
  unfold run_native_binary
  rw [if_pos ht]

theorem run_binary_loader_missing (hasSGX : Bool) (b : Bool) (lp pp : String)
    (args : List String) (timeout : Option Nat) (pfx : Option (List String))
    (proc : ProcSpec) :
    run_binary hasSGX ⟨false, b⟩ lp pp args timeout pfx proc
      = (.testFailure ("loader (" ++ lp ++ ") not found"), []) := by
  unfold run_binary
  simp

theorem run_binary_libpal_missing (hasSGX : Bool) (lp pp : String)
    (args : List String) (timeout : Option Nat) (pfx : Option (List String))
    (proc : ProcSpec) :
    run_binary hasSGX ⟨true, false⟩ lp pp args timeout pfx proc
      = (.testFailure ("libpal (" ++ pp ++ ") not found"), []) := by
  unfold run_binary
  simp

/-! ## The claims -/

/-- C1, counterexample: a target that exits with code 0 before the timeout
but writes the non-UTF-8 byte `0xFF` to stdout does not yield a success
outcome at all — `stdout.decode()` raises `UnicodeDecodeError` — so the
captured streams are not surfaced to the caller as raw bytes on every
zero-exit invocation. -/
theorem claim_C1_counterexample :
    (run_binary false ⟨true, true⟩ "loader" "libpal" [] none none
      ⟨0, 0, [0xFF], []⟩).1 = RunResult.unicodeDecodeError := by
  decide

/-- C1 (amended): for every supervised invocation (`run_binary` or
`run_native_binary`) whose target exits with code 0 before the effective
timeout and whose captured streams are valid UTF-8, the operation returns a
success outcome carrying the strict UTF-8 decodings of the two streams, and
those decodings re-encode byte-for-byte to exactly the bytes the process
wrote — no truncation, no duplication. -/
theorem claim_C1 :
    (∀ (hasSGX : Bool) (fs : ArtifactFS) (lp pp : String) (args : List String)
        (timeout : Option Nat) (pfx : Option (List String)) (proc : ProcSpec)
        (so se : List Nat),
      fs.loaderExists = true → fs.libpalExists = true →
      proc.runtime ≤ effectiveTimeout (DEFAULT_TIMEOUT hasSGX) timeout →
      proc.returncode = 0 →
      utf8Decode? proc.stdout = some so → utf8Decode? proc.stderr = some se →
      (run_binary hasSGX fs lp pp args timeout pfx proc).1 = RunResult.success so se
        ∧ utf8Encode so = proc.stdout ∧ utf8Encode se = proc.stderr) ∧
    (∀ (hasSGX : Bool) (args : List String) (timeout : Option Nat) (proc : ProcSpec)
        (so se : List Nat),
      proc.runtime ≤ effectiveTimeout (DEFAULT_TIMEOUT hasSGX) timeout →
      proc.returncode = 0 →
      utf8Decode? proc.stdout = some so → utf8Decode? proc.stderr = some se →
      (run_native_binary hasSGX args timeout proc).1 = RunResult.success so se
        ∧ utf8Encode so = proc.stdout ∧ utf8Encode se = proc.stderr) := by
  constructor
  · intro hasSGX fs lp pp args timeout pfx proc so se hl hp ht hrc hso hserr
    refine ⟨?_, utf8_decode_roundtrip hso, utf8_decode_roundtrip hserr⟩
    rw [run_binary_run hasSGX fs lp pp args timeout pfx proc hl hp ht]
    simp [hrc, hso, hserr]
  · intro hasSGX args timeout proc so se ht hrc hso hserr
    refine ⟨?_, utf8_decode_roundtrip hso, utf8_decode_roundtrip hserr⟩
    rw [run_native_binary_run hasSGX args timeout proc ht]
    simp [hrc, hso, hserr]

/-- C1, witness: a concrete zero-exit run returning `hi\n` on stdout and the
two-byte UTF-8 sequence for `©` on stderr. -/
theorem claim_C1_witness :
    (run_binary false ⟨true, true⟩ "loader" "libpal" ["arg"] none none
        ⟨1, 0, [104, 105, 10], [194, 169]⟩).1
      = RunResult.success [104, 105, 10] [169]
      ∧ utf8Encode [104, 105, 10] = [104, 105, 10]
      ∧ utf8Encode [169] = [194, 169] :=
  claim_C1.1 false ⟨true, true⟩ "loader" "libpal" ["arg"] none none
    ⟨1, 0, [104, 105, 10], [194, 169]⟩ [104, 105, 10] [169]
    rfl rfl (by decide) rfl (by decide) (by decide)

/-- C2: a supervised invocation raises `CalledProcessError` exactly when the
process terminated within the effective timeout with a nonzero status, and
the error then carries exactly that status, the user argument vector, and
the full captured stdout and stderr bytes — for both `run_binary` and
`run_native_binary`. -/
theorem claim_C2 :
    (∀ (hasSGX : Bool) (fs : ArtifactFS) (lp pp : String) (args : List String)
        (timeout : Option Nat) (pfx : Option (List String)) (proc : ProcSpec)
        (k : Int) (cmd : List String) (so se : List Nat),
      fs.loaderExists = true → fs.libpalExists = true →
      ((run_binary hasSGX fs lp pp args timeout pfx proc).1
          = RunResult.calledProcessError k cmd so se ↔
        proc.runtime ≤ effectiveTimeout (DEFAULT_TIMEOUT hasSGX) timeout
          ∧ proc.returncode ≠ 0 ∧ proc.returncode = k ∧ args = cmd
          ∧ proc.stdout = so ∧ proc.stderr = se)) ∧
    (∀ (hasSGX : Bool) (args : List String) (timeout : Option Nat) (proc : ProcSpec)
        (k : Int) (cmd : List String) (so se : List Nat),
      (run_native_binary hasSGX args timeout proc).1
          = RunResult.calledProcessError k cmd so se ↔
        proc.runtime ≤ effectiveTimeout (DEFAULT_TIMEOUT hasSGX) timeout
          ∧ proc.returncode ≠ 0 ∧ proc.returncode = k ∧ args = cmd
          ∧ proc.stdout = so ∧ proc.stderr = se) := by
  constructor
  · intro hasSGX fs lp pp args timeout pfx proc k cmd so se hl hp
    by_cases ht : proc.runtime ≤ effectiveTimeout (DEFAULT_TIMEOUT hasSGX) timeout
    · rw [run_binary_run hasSGX fs lp pp args timeout pfx proc hl hp ht]
      by_cases hrc : proc.returncode = 0
      · rcases hso : utf8Decode? proc.stdout with _ | so1
        · simp [hrc, hso]
        · rcases hse : utf8Decode? proc.stderr with _ | se1 <;> simp [hrc, hso, hse]
      · simp [hrc, ht]
    · rw [run_binary_timeout_eq hasSGX fs lp pp args timeout pfx proc hl hp
        (Nat.not_le.mp ht)]
      simp [ht]
  · intro hasSGX args timeout proc k cmd so se
    by_cases ht : proc.runtime ≤ effectiveTimeout (DEFAULT_TIMEOUT hasSGX) timeout
    · rw [run_native_binary_run hasSGX args timeout proc ht]
      by_cases hrc : proc.returncode = 0
      · rcases hso : utf8Decode? proc.stdout with _ | so1
        · simp [hrc, hso]
        · rcases hse : utf8Decode? proc.stderr with _ | se1 <;> simp [hrc, hso, hse]
      · simp [hrc, ht]
    · rw [run_native_binary_timeout_eq hasSGX args timeout proc (Nat.not_le.mp ht)]
      simp [ht]

/-- C2, witness: a concrete run exiting with status 7 within the timeout
raises `CalledProcessError(7, args, stdout, stderr)`. -/
theorem claim_C2_witness :
    (run_binary false ⟨true, true⟩ "loader" "libpal" ["t"] none none
        ⟨2, 7, [65], [66]⟩).1 = RunResult.calledProcessError 7 ["t"] [65] [66] :=
  (claim_C2.1 false ⟨true, true⟩ "loader" "libpal" ["t"] none none ⟨2, 7, [65], [66]⟩
    7 ["t"] [65] [66] rfl rfl).mpr (by decide)

/-- C3: when the process does not terminate within the effective timeout,
the supervisor's whole behaviour is: one spawn, then exactly one immediate
`killpg` with `SIGKILL` (no graceful `SIGTERM` first), then an
`AssertionError` test failure whose message names the bound used; the
outcome carries no captured output and no output is forwarded, and it is a
`testFailure`, never a `calledProcessError`. -/
theorem claim_C3 :
    (∀ (hasSGX : Bool) (fs : ArtifactFS) (lp pp : String) (args : List String)
        (timeout : Option Nat) (pfx : Option (List String)) (proc : ProcSpec),
      fs.loaderExists = true → fs.libpalExists = true →
      effectiveTimeout (DEFAULT_TIMEOUT hasSGX) timeout < proc.runtime →
      run_binary hasSGX fs lp pp args timeout pfx proc =
        (RunResult.testFailure ("timeout ("
            ++ toString (effectiveTimeout (DEFAULT_TIMEOUT hasSGX) timeout) ++ " s) expired"),
         [Event.spawn (pfx.getD [] ++ [lp, pp, "init"] ++ args),
          Event.killpg Sig.SIGKILL])) ∧
    (∀ (hasSGX : Bool) (args : List String) (timeout : Option Nat) (proc : ProcSpec),
      effectiveTimeout (DEFAULT_TIMEOUT hasSGX) timeout < proc.runtime →
      run_native_binary hasSGX args timeout proc =
        (RunResult.testFailure ("timeout ("
            ++ toString (effectiveTimeout (DEFAULT_TIMEOUT hasSGX) timeout) ++ " s) expired"),
         [Event.spawn args, Event.killpg Sig.SIGKILL])) :=
  ⟨fun hasSGX fs lp pp args timeout pfx proc hl hp ht =>
      run_binary_timeout_eq hasSGX fs lp pp args timeout pfx proc hl hp ht,
    fun hasSGX args timeout proc ht =>
      run_native_binary_timeout_eq hasSGX args timeout proc ht⟩

/-- C3, witness: a 31-second process under a requested 30-second timeout is
killed and reported as `timeout (30 s) expired`. -/
theorem claim_C3_witness :
    run_binary false ⟨true, true⟩ "L" "P" ["a"] (some 30) (some ["gdb"])
        ⟨31, 0, [72], []⟩ =
      (RunResult.testFailure "timeout (30 s) expired",
       [Event.spawn ["gdb", "L", "P", "init", "a"], Event.killpg Sig.SIGKILL]) :=
  claim_C3.1 false ⟨true, true⟩ "L" "P" ["a"] (some 30) (some ["gdb"])
    ⟨31, 0, [72], []⟩ rfl rfl (by decide)

/-- C4: the effective timeout used by both supervised invocations (the bound
they pass to `communicate` and print in the timeout message) is
`effectiveTimeout (DEFAULT_TIMEOUT hasSGX) timeout`, which equals
`max default requested` for an explicit request, equals the default when no
timeout is requested, is monotonic in the request, and is never smaller
than the default. -/
theorem claim_C4 :
    (∀ (d t : Nat), effectiveTimeout d (some t) = max d t) ∧
    (∀ d : Nat, effectiveTimeout d none = d) ∧
    (∀ (d t1 t2 : Nat), t1 ≤ t2 →
      effectiveTimeout d (some t1) ≤ effectiveTimeout d (some t2)) ∧
    (∀ (d : Nat) (timeout : Option Nat), d ≤ effectiveTimeout d timeout) := by
  refine ⟨fun d t => rfl, fun d => rfl, fun d t1 t2 h => ?_, fun d timeout => ?_⟩
  · simp only [effectiveTimeout]
    omega
  · cases timeout <;> simp [effectiveTimeout]

/-- C4, witness: monotonicity at the default bound of the non-SGX mode,
requests 3 and 25. -/
theorem claim_C4_witness :
    effectiveTimeout (DEFAULT_TIMEOUT false) (some 3)
      ≤ effectiveTimeout (DEFAULT_TIMEOUT false) (some 25) :=
  claim_C4.2.2.1 (DEFAULT_TIMEOUT false) 3 25 (by decide)

/-- C5: `expect_returncode C` raises `ValueError` before entering the body
when `C = 0`; fails with `did not fail (expected C)` when the body completes
without raising; fails naming both codes when the body raises
`CalledProcessError` with a different code; passes silently on a matching
code; and lets every non-`CalledProcessError` failure (timeout
`AssertionError`, launch error, ...) propagate unmodified. -/
theorem claim_C5 :
    (∀ body, expect_returncode 0 body
        = (ExpectResult.valueError "expected returncode should be nonzero", false)) ∧
    (∀ rc : Int, rc ≠ 0 →
      expect_returncode rc BodyOutcome.completes
        = (ExpectResult.testFailure ("did not fail (expected " ++ toString rc ++ ")"),
           true)) ∧
    (∀ (rc k : Int) (cmd : List String) (so se : List Nat), rc ≠ 0 → k ≠ rc →
      expect_returncode rc (BodyOutcome.calledProcessError k cmd so se)
        = (ExpectResult.testFailure ("failed with returncode " ++ toString k
            ++ " (expected " ++ toString rc ++ ")"), true)) ∧
    (∀ (rc : Int) (cmd : List String) (so se : List Nat), rc ≠ 0 →
      expect_returncode rc (BodyOutcome.calledProcessError rc cmd so se)
        = (ExpectResult.passed, true)) ∧
    (∀ (rc : Int) (m : String), rc ≠ 0 →
      expect_returncode rc (BodyOutcome.otherFailure m)
        = (ExpectResult.propagated m, true)) := by
  refine ⟨fun body => rfl, ?_, ?_, ?_, ?_⟩
  · intro rc h
    simp [expect_returncode, h]
  · intro rc k cmd so se h hk
    simp [expect_returncode, h, hk]
  · intro rc cmd so se h
    simp [expect_returncode, h]
  · intro rc m h
    simp [expect_returncode, h]

/-- C5, witness: the four behaviours at expected code 5 with bodies exiting
0, 3 and 5 and a body failing with a timeout `AssertionError`. -/
theorem claim_C5_witness :
    expect_returncode 5 BodyOutcome.completes
        = (ExpectResult.testFailure "did not fail (expected 5)", true)
      ∧ expect_returncode 5 (BodyOutcome.calledProcessError 3 ["c"] [] [])
        = (ExpectResult.testFailure "failed with returncode 3 (expected 5)", true)
      ∧ expect_returncode 5 (BodyOutcome.calledProcessError 5 ["c"] [] [])
        = (ExpectResult.passed, true)
      ∧ expect_returncode 5 (BodyOutcome.otherFailure "timeout (10 s) expired")
        = (ExpectResult.propagated "timeout (10 s) expired", true) :=
  ⟨claim_C5.2.1 5 (by decide),
    claim_C5.2.2.1 5 3 ["c"] [] [] (by decide) (by decide),
    claim_C5.2.2.2.1 5 ["c"] [] [] (by decide),
    claim_C5.2.2.2.2 5 "timeout (10 s) expired" (by decide)⟩

/-- C6: `run_binary` checks the loader and libpal paths before spawning
anything: if the loader is missing the result is an immediate test failure
naming the loader path with an empty event trace (no process created, loader
checked first), and likewise for a missing libpal. -/
theorem claim_C6 :
    (∀ (hasSGX : Bool) (lp pp : String) (args : List String) (timeout : Option Nat)
        (pfx : Option (List String)) (proc : ProcSpec) (b : Bool),
      run_binary hasSGX ⟨false, b⟩ lp pp args timeout pfx proc
        = (RunResult.testFailure ("loader (" ++ lp ++ ") not found"), [])) ∧
    (∀ (hasSGX : Bool) (lp pp : String) (args : List String) (timeout : Option Nat)
        (pfx : Option (List String)) (proc : ProcSpec),
      run_binary hasSGX ⟨true, false⟩ lp pp args timeout pfx proc
        = (RunResult.testFailure ("libpal (" ++ pp ++ ") not found"), [])) :=
  ⟨fun hasSGX lp pp args timeout pfx proc b =>
      run_binary_loader_missing hasSGX b lp pp args timeout pfx proc,
    fun hasSGX lp pp args timeout pfx proc =>
      run_binary_libpal_missing hasSGX lp pp args timeout pfx proc⟩

/-- C7: whenever a process is spawned, its argument vector is exactly
`prefix ++ [loaderPath, libpalPath, 'init'] ++ userArgs` for `run_binary`
(with the empty prefix when none is given), and exactly the caller-supplied
`userArgs` for `run_native_binary`, which bypasses the loader convention. -/
theorem claim_C7 :
    (∀ (hasSGX : Bool) (fs : ArtifactFS) (lp pp : String) (args : List String)
        (timeout : Option Nat) (pfx : Option (List String)) (proc : ProcSpec),
      fs.loaderExists = true → fs.libpalExists = true →
      ∃ evs, (run_binary hasSGX fs lp pp args timeout pfx proc).2
        = Event.spawn (pfx.getD [] ++ [lp, pp, "init"] ++ args) :: evs) ∧
    (∀ (hasSGX : Bool) (args : List String) (timeout : Option Nat) (proc : ProcSpec),
      ∃ evs, (run_native_binary hasSGX args timeout proc).2
        = Event.spawn args :: evs) := by
  constructor
  · intro hasSGX fs lp pp args timeout pfx proc hl hp
    by_cases ht : proc.runtime ≤ effectiveTimeout (DEFAULT_TIMEOUT hasSGX) timeout
    · exact ⟨[print_output proc.stdout proc.stderr],
        by rw [run_binary_run hasSGX fs lp pp args timeout pfx proc hl hp ht]⟩
    · exact ⟨[Event.killpg Sig.SIGKILL],
        by rw [run_binary_timeout_eq hasSGX fs lp pp args timeout pfx proc hl hp
          (Nat.not_le.mp ht)]⟩
  · intro hasSGX args timeout proc
    by_cases ht : proc.runtime ≤ effectiveTimeout (DEFAULT_TIMEOUT hasSGX) timeout
    · exact ⟨[print_output proc.stdout proc.stderr],
        by rw [run_native_binary_run hasSGX args timeout proc ht]⟩
    · exact ⟨[Event.killpg Sig.SIGKILL],
        by rw [run_native_binary_timeout_eq hasSGX args timeout proc (Nat.not_le.mp ht)]⟩

/-- C7, witness: with no prefix, the spawned argument vector starts
`[loader, libpal, 'init']` followed by the user arguments. -/
theorem claim_C7_witness :
    (run_binary false ⟨true, true⟩ "L" "P" ["x"] none none ⟨0, 0, [], []⟩).2.head?
      = some (Event.spawn ["L", "P", "init", "x"]) := by
  obtain ⟨evs, hevs⟩ :=
    claim_C7.1 false ⟨true, true⟩ "L" "P" ["x"] none none ⟨0, 0, [], []⟩ rfl rfl
  rw [hevs]
  rfl

/-- C8: on every terminating path except pure timeout — whatever the exit
status and whatever bytes were written, decodable or not — the
surrogateescape-decoded captured streams are forwarded (`print_output`) to
the harness's own stdout/stderr; on the timeout path nothing is forwarded.
The forwarding decoder tolerates encoding errors: it agrees with the strict
decoder wherever that succeeds and substitutes a lossy placeholder
(`0xDC00 + byte`) where it fails, instead of failing itself. -/
theorem claim_C8 :
    (∀ (hasSGX : Bool) (fs : ArtifactFS) (lp pp : String) (args : List String)
        (timeout : Option Nat) (pfx : Option (List String)) (proc : ProcSpec),
      fs.loaderExists = true → fs.libpalExists = true →
      proc.runtime ≤ effectiveTimeout (DEFAULT_TIMEOUT hasSGX) timeout →
      print_output proc.stdout proc.stderr
        ∈ (run_binary hasSGX fs lp pp args timeout pfx proc).2) ∧
    (∀ (hasSGX : Bool) (fs : ArtifactFS) (lp pp : String) (args : List String)
        (timeout : Option Nat) (pfx : Option (List String)) (proc : ProcSpec),
      fs.loaderExists = true → fs.libpalExists = true →
      effectiveTimeout (DEFAULT_TIMEOUT hasSGX) timeout < proc.runtime →
      ∀ o e, Event.forward o e ∉ (run_binary hasSGX fs lp pp args timeout pfx proc).2) ∧
    (∀ (hasSGX : Bool) (args : List String) (timeout : Option Nat) (proc : ProcSpec),
      proc.runtime ≤ effectiveTimeout (DEFAULT_TIMEOUT hasSGX) timeout →
      print_output proc.stdout proc.stderr
        ∈ (run_native_binary hasSGX args timeout proc).2) ∧
    (∀ (hasSGX : Bool) (args : List String) (timeout : Option Nat) (proc : ProcSpec),
      effectiveTimeout (DEFAULT_TIMEOUT hasSGX) timeout < proc.runtime →
      ∀ o e, Event.forward o e ∉ (run_native_binary hasSGX args timeout proc).2) ∧
    (∀ bs cs, utf8Decode? bs = some cs → decodeSE bs = cs) ∧
    decodeSE [0xFF] = [0xDC00 + 0xFF] := by
  refine ⟨?_, ?_, ?_, ?_, fun bs cs h => decodeSE_eq_strict h, by decide⟩
  · intro hasSGX fs lp pp args timeout pfx proc hl hp ht
    rw [run_binary_run hasSGX fs lp pp args timeout pfx proc hl hp ht]
    simp
  · intro hasSGX fs lp pp args timeout pfx proc hl hp ht o e
    rw [run_binary_timeout_eq hasSGX fs lp pp args timeout pfx proc hl hp ht]
    simp
  · intro hasSGX args timeout proc ht
    rw [run_native_binary_run hasSGX args timeout proc ht]
    simp
  · intro hasSGX args timeout proc ht o e
    rw [run_native_binary_timeout_eq hasSGX args timeout proc ht]
    simp

/-- C8, witness: even a stream holding only the undecodable byte `0xFF` is
forwarded (lossily decoded) before the non-zero-exit outcome is raised. -/
theorem claim_C8_witness :
    print_output [0xFF] []
      ∈ (run_binary false ⟨true, true⟩ "L" "P" [] none none ⟨0, 1, [0xFF], []⟩).2 :=
  claim_C8.1 false ⟨true, true⟩ "L" "P" [] none none ⟨0, 1, [0xFF], []⟩
    rfl rfl (by decide)

/-- C9: within one supervised invocation the process group is killed at most
once; a kill event occurs only when the wait exceeded the timeout bound; and
an invocation that reports the process as having exited normally (success or
non-zero exit) never killed it. -/
theorem claim_C9 :
    (∀ (hasSGX : Bool) (fs : ArtifactFS) (lp pp : String) (args : List String)
        (timeout : Option Nat) (pfx : Option (List String)) (proc : ProcSpec),
      ((run_binary hasSGX fs lp pp args timeout pfx proc).2.countP isKillEvent ≤ 1)
      ∧ (∀ s : Sig,
          Event.killpg s ∈ (run_binary hasSGX fs lp pp args timeout pfx proc).2 →
          effectiveTimeout (DEFAULT_TIMEOUT hasSGX) timeout < proc.runtime)
      ∧ (∀ s : Sig,
          Event.killpg s ∈ (run_binary hasSGX fs lp pp args timeout pfx proc).2 →
          ∀ so se, (run_binary hasSGX fs lp pp args timeout pfx proc).1
            ≠ RunResult.success so se)
      ∧ (∀ s : Sig,
          Event.killpg s ∈ (run_binary hasSGX fs lp pp args timeout pfx proc).2 →
          ∀ (k : Int) (cmd : List String) (so se : List Nat),
            (run_binary hasSGX fs lp pp args timeout pfx proc).1
              ≠ RunResult.calledProcessError k cmd so se)) ∧
    (∀ (hasSGX : Bool) (args : List String) (timeout : Option Nat) (proc : ProcSpec),
      ((run_native_binary hasSGX args timeout proc).2.countP isKillEvent ≤ 1)
      ∧ (∀ s : Sig, Event.killpg s ∈ (run_native_binary hasSGX args timeout proc).2 →
          effectiveTimeout (DEFAULT_TIMEOUT hasSGX) timeout < proc.runtime)
      ∧ (∀ s : Sig, Event.killpg s ∈ (run_native_binary hasSGX args timeout proc).2 →
          ∀ so se, (run_native_binary hasSGX args timeout proc).1
            ≠ RunResult.success so se)
      ∧ (∀ s : Sig, Event.killpg s ∈ (run_native_binary hasSGX args timeout proc).2 →
          ∀ (k : Int) (cmd : List String) (so se : List Nat),
            (run_native_binary hasSGX args timeout proc).1
              ≠ RunResult.calledProcessError k cmd so se)) := by
  constructor
  · intro hasSGX fs lp pp args timeout pfx proc
    obtain ⟨l, p⟩ := fs
    cases l
    · refine ⟨?_, ?_, ?_, ?_⟩ <;> simp [run_binary_loader_missing]
    · cases p
      · refine ⟨?_, ?_, ?_, ?_⟩ <;> simp [run_binary_libpal_missing]
      · by_cases ht : effectiveTimeout (DEFAULT_TIMEOUT hasSGX) timeout < proc.runtime
        · refine ⟨?_, ?_, ?_, ?_⟩ <;>
            simp [run_binary_timeout_eq hasSGX ⟨true, true⟩ lp pp args timeout pfx proc
              rfl rfl ht, isKillEvent, ht, List.countP_cons]
        · have ht' : proc.runtime ≤ effectiveTimeout (DEFAULT_TIMEOUT hasSGX) timeout :=
            Nat.not_lt.mp ht
          refine ⟨?_, ?_, ?_, ?_⟩ <;>
            simp [run_binary_run hasSGX ⟨true, true⟩ lp pp args timeout pfx proc
              rfl rfl ht', isKillEvent, print_output, List.countP_cons]
  · intro hasSGX args timeout proc
    by_cases ht : effectiveTimeout (DEFAULT_TIMEOUT hasSGX) timeout < proc.runtime
    · refine ⟨?_, ?_, ?_, ?_⟩ <;>
        simp [run_native_binary_timeout_eq hasSGX args timeout proc ht, isKillEvent, ht,
          List.countP_cons]
    · have ht' : proc.runtime ≤ effectiveTimeout (DEFAULT_TIMEOUT hasSGX) timeout :=
        Nat.not_lt.mp ht
      refine ⟨?_, ?_, ?_, ?_⟩ <;>
        simp [run_native_binary_run hasSGX args timeout proc ht', isKillEvent,
          print_output, List.countP_cons]

/-- C9, witness: a run whose trace contains the kill event did exceed its
bound, and even that trace carries at most one kill. -/
theorem claim_C9_witness :
    effectiveTimeout (DEFAULT_TIMEOUT false) none < 100
      ∧ (run_binary false ⟨true, true⟩ "L" "P" [] none none
          ⟨100, 0, [], []⟩).2.countP isKillEvent ≤ 1 :=
  ⟨(claim_C9.1 false ⟨true, true⟩ "L" "P" [] none none ⟨100, 0, [], []⟩).2.1
      Sig.SIGKILL (by decide),
    (claim_C9.1 false ⟨true, true⟩ "L" "P" [] none none ⟨100, 0, [], []⟩).1⟩

/-- C10: the success path returns the strict UTF-8 decoding of the captured
bytes, not the raw bytes: whenever either invocation returns success, the
returned streams are the strict decodings of what was written, and a target
that exits 0 within the timeout but writes invalid UTF-8 (`C3 28`, a lone
`80`) makes the invocation raise `UnicodeDecodeError` instead of returning a
success outcome. -/
theorem claim_C10 :
    ((run_binary false ⟨true, true⟩ "loader" "libpal" [] none none
        ⟨0, 0, [0xC3, 0x28], []⟩).1 = RunResult.unicodeDecodeError) ∧
    ((run_native_binary false ["helper"] none ⟨0, 0, [], [0x80]⟩).1
        = RunResult.unicodeDecodeError) ∧
    (∀ (hasSGX : Bool) (fs : ArtifactFS) (lp pp : String) (args : List String)
        (timeout : Option Nat) (pfx : Option (List String)) (proc : ProcSpec)
        (so se : List Nat),
      (run_binary hasSGX fs lp pp args timeout pfx proc).1 = RunResult.success so se →
      utf8Decode? proc.stdout = some so ∧ utf8Decode? proc.stderr = some se) ∧
    (∀ (hasSGX : Bool) (args : List String) (timeout : Option Nat) (proc : ProcSpec)
        (so se : List Nat),
      (run_native_binary hasSGX args timeout proc).1 = RunResult.success so se →
      utf8Decode? proc.stdout = some so ∧ utf8Decode? proc.stderr = some se) := by
  refine ⟨by decide, by decide, ?_, ?_⟩
  · intro hasSGX fs lp pp args timeout pfx proc so se hres
    obtain ⟨l, p⟩ := fs
    cases l
    · rw [run_binary_loader_missing] at hres
      exact absurd hres (by simp)
    · cases p
      · rw [run_binary_libpal_missing] at hres
        exact absurd hres (by simp)
      · by_cases ht : effectiveTimeout (DEFAULT_TIMEOUT hasSGX) timeout < proc.runtime
        · rw [run_binary_timeout_eq hasSGX ⟨true, true⟩ lp pp args timeout pfx proc
            rfl rfl ht] at hres
          exact absurd hres (by simp)
        · rw [run_binary_run hasSGX ⟨true, true⟩ lp pp args timeout pfx proc
            rfl rfl (Nat.not_lt.mp ht)] at hres
          by_cases hrc : proc.returncode = 0
          · rw [if_neg (by simp [hrc])] at hres
            rcases hso : utf8Decode? proc.stdout with _ | so1
            · rw [hso] at hres
              exact absurd hres (by simp)
            · rw [hso] at hres
              rcases hserr : utf8Decode? proc.stderr with _ | se1
              · rw [hserr] at hres
                exact absurd hres (by simp)
              · rw [hserr] at hres
                simp only [RunResult.success.injEq] at hres
                obtain ⟨rfl, rfl⟩ := hres
                exact ⟨rfl, rfl⟩
          · rw [if_pos hrc] at hres
            exact absurd hres (by simp)
  · intro hasSGX args timeout proc so se hres
    by_cases ht : effectiveTimeout (DEFAULT_TIMEOUT hasSGX) timeout < proc.runtime
    · rw [run_native_binary_timeout_eq hasSGX args timeout proc ht] at hres
      exact absurd hres (by simp)
    · rw [run_native_binary_run hasSGX args timeout proc (Nat.not_lt.mp ht)] at hres
      by_cases hrc : proc.returncode = 0
      · rw [if_neg (by simp [hrc])] at hres
        rcases hso : utf8Decode? proc.stdout with _ | so1
        · rw [hso] at hres
          exact absurd hres (by simp)
        · rw [hso] at hres
          rcases hserr : utf8Decode? proc.stderr with _ | se1
          · rw [hserr] at hres
            exact absurd hres (by simp)
          · rw [hserr] at hres
            simp only [RunResult.success.injEq] at hres
            obtain ⟨rfl, rfl⟩ := hres
            exact ⟨rfl, rfl⟩
      · rw [if_pos hrc] at hres
        exact absurd hres (by simp)

/-- C10, witness: a concrete successful run returns streams that are the
strict decodings of the written bytes. -/
theorem claim_C10_witness :
    utf8Decode? [104] = some [104] ∧ utf8Decode? [] = some [] :=
  claim_C10.2.2.1 false ⟨true, true⟩ "L" "P" [] none none ⟨0, 0, [104], []⟩
    [104] [] (by decide)

end Gramine
